import Mathlib

/-!
Verification of the authentication / authorization core and the task CRUD
handlers of the scalable-rest-api repository, as a shallow embedding.

The task routes (`routes/tasks.js`), the user-management routes
(`routes/users.js`) and the request validation (`middleware/validation.js`)
are translated directly from the source.  The credential store, password
hasher, token service and authentication gate (`models/User.js`,
`routes/auth.js`, `middleware/auth.js`) are not present in the source tree;
those components are modelled from the specification, and each such
definition carries a doc comment saying so.

Mongo's `findOne` / `findOneAndUpdate` / `findOneAndDelete` act on the first
document matching a filter; collections are modelled as lists in natural
order, the filters as boolean predicates.
-/

set_option autoImplicit false

namespace ScalableApi

/-! ## Data model -/

/-- A password digest.  The hasher itself is absent from the source tree and
is modelled from the spec (see `hash` below); the digest records the salt and
a body from which `verify` can decide an exact match. -/
structure Digest where
  salt : Nat
  body : String
deriving Repr, DecidableEq

/-- A persisted principal record (the `User` Mongoose model; the model file
is absent from the source, fields follow the spec's Principal data model:
identifier, display name, email, password digest, role). -/
structure User where
  id : Nat
  name : String
  email : String
  passwordDigest : Digest
  role : String
deriving Repr, DecidableEq

/-- A persisted task document, from `models/Task.js`: title, description,
status (default `pending`), priority (default `medium`), optional due date,
and the owning principal's id (`createdBy`). -/
structure Task where
  id : Nat
  title : String
  description : String
  status : String
  priority : String
  dueDate : Option Nat
  createdBy : Nat
deriving Repr, DecidableEq

/-! ## Generic Mongo-style operations on a list of documents -/

/-- `findOneAndUpdate` with `{new: true}`: rewrite the first document
matching `q` by `f`, returning the updated document and the new collection.
If nothing matches, the collection is unchanged and `none` is returned. -/
def findOneAndUpdate {α : Type} (q : α → Bool) (f : α → α) : List α → Option α × List α
  | [] => (none, [])
  | t :: ts =>
    if q t then (some (f t), f t :: ts)
    else
      let r := findOneAndUpdate q f ts
      (r.fst, t :: r.snd)

/-- `findOneAndDelete`: remove the first document matching `q`, returning the
removed document and the remaining collection. -/
def findOneAndDelete {α : Type} (q : α → Bool) : List α → Option α × List α
  | [] => (none, [])
  | t :: ts =>
    if q t then (some t, ts)
    else
      let r := findOneAndDelete q ts
      (r.fst, t :: r.snd)

/-! ## Task routes (`routes/tasks.js`) -/

/-- The Mongo filter built by the single-task handlers: `{_id: id}` always,
and additionally `{createdBy: req.user._id}` when the requester's role is not
`admin` ("Users can only see their own tasks"). -/
def taskIdQuery (u : User) (tid : Nat) (t : Task) : Bool :=
  t.id == tid && (u.role == "admin" || t.createdBy == u.id)

/-- Response of `GET /api/v1/tasks/:id`. -/
inductive TaskGetResp
  | notFound
  | ok (t : Task)
deriving Repr, DecidableEq

/-- HTTP status sent for each `GET /api/v1/tasks/:id` outcome. -/
def TaskGetResp.status : TaskGetResp → Nat
  | .notFound => 404
  | .ok _ => 200

/-- Handler of `GET /api/v1/tasks/:id`: `Task.findOne(query)`, 404 with
message "Task not found" when no document matches, otherwise 200 with the
task. -/
def getTaskById (store : List Task) (u : User) (tid : Nat) : TaskGetResp :=
  match store.find? (taskIdQuery u tid) with
  | none => .notFound
  | some t => .ok t

/-- Body accepted by `PUT /api/v1/tasks/:id` after `validateTaskUpdate`
(`middleware/validation.js`): every field optional, unknown keys — in
particular `createdBy` — rejected by Joi before the handler runs. -/
structure TaskUpdateBody where
  title : Option String
  description : Option String
  status : Option String
  priority : Option String
  dueDate : Option Nat
deriving Repr, DecidableEq

/-- Mongo's update of a document by a partial body: each supplied field
replaces the stored one, absent fields are kept. -/
def applyUpdate (b : TaskUpdateBody) (t : Task) : Task :=
  { t with
    title := b.title.getD t.title
    description := b.description.getD t.description
    status := b.status.getD t.status
    priority := b.priority.getD t.priority
    dueDate := (b.dueDate.map some).getD t.dueDate }

/-- Response of `PUT /api/v1/tasks/:id`. -/
inductive TaskPutResp
  | notFound
  | updated (t : Task)
deriving Repr, DecidableEq

/-- HTTP status sent for each `PUT /api/v1/tasks/:id` outcome. -/
def TaskPutResp.status : TaskPutResp → Nat
  | .notFound => 404
  | .updated _ => 200

/-- Handler of `PUT /api/v1/tasks/:id`: `Task.findOneAndUpdate(query, body,
{new: true})`; 404 "Task not found" when no document matches, otherwise 200
with the updated task.  Returns the response and the resulting store. -/
def putTask (store : List Task) (u : User) (tid : Nat) (b : TaskUpdateBody) :
    TaskPutResp × List Task :=
  let r := findOneAndUpdate (taskIdQuery u tid) (applyUpdate b) store
  match r.fst with
  | none => (.notFound, r.snd)
  | some t => (.updated t, r.snd)

/-- Response of `DELETE /api/v1/tasks/:id`. -/
inductive TaskDeleteResp
  | notFound
  | deleted
deriving Repr, DecidableEq

/-- HTTP status sent for each `DELETE /api/v1/tasks/:id` outcome. -/
def TaskDeleteResp.status : TaskDeleteResp → Nat
  | .notFound => 404
  | .deleted => 200

/-- Handler of `DELETE /api/v1/tasks/:id`: `Task.findOneAndDelete(query)`;
404 "Task not found" when no document matches, otherwise 200. -/
def deleteTask (store : List Task) (u : User) (tid : Nat) :
    TaskDeleteResp × List Task :=
  let r := findOneAndDelete (taskIdQuery u tid) store
  match r.fst with
  | none => (.notFound, r.snd)
  | some _ => (.deleted, r.snd)

/-- Body accepted by `POST /api/v1/tasks`.  `validateTask` requires title and
description; status, priority and dueDate are optional.  The JS handler
spreads the raw body before forcing `createdBy`, so a caller-supplied
`createdBy` is carried here to show it is overwritten. -/
structure TaskCreateBody where
  title : String
  description : String
  status : Option String
  priority : Option String
  dueDate : Option Nat
  createdBy : Option Nat
deriving Repr, DecidableEq

/-- The document built by the `POST /api/v1/tasks` handler:
`{...req.body, createdBy: req.user._id}` — the spread places any
body-supplied `createdBy` first and the later literal key overwrites it, so
the stored owner is always the authenticated user's id.  Schema defaults
from `models/Task.js` fill status and priority. -/
def mkTask (freshId : Nat) (b : TaskCreateBody) (uid : Nat) : Task :=
  { id := freshId
    title := b.title
    description := b.description
    status := b.status.getD "pending"
    priority := b.priority.getD "medium"
    dueDate := b.dueDate
    createdBy := uid }

/-- Response of `POST /api/v1/tasks`. -/
inductive TaskCreateResp
  | created (t : Task)
deriving Repr, DecidableEq

/-- HTTP status of the `POST /api/v1/tasks` success outcome. -/
def TaskCreateResp.status : TaskCreateResp → Nat
  | .created _ => 201

/-- Handler of `POST /api/v1/tasks`: builds the document with the forced
`createdBy` and `Task.create`s it (appended to the collection); 201 with the
created task. -/
def postTask (store : List Task) (u : User) (b : TaskCreateBody) (freshId : Nat) :
    TaskCreateResp × List Task :=
  let t := mkTask freshId b u.id
  (.created t, store ++ [t])

/-! ## User-management route (`routes/users.js`) -/

/-- Response of `PATCH /api/v1/users/:id/role`. -/
inductive RoleResp
  | invalidRole
  | notFound
  | ok (u : User)
deriving Repr, DecidableEq

/-- HTTP status sent for each `PATCH /api/v1/users/:id/role` outcome. -/
def RoleResp.status : RoleResp → Nat
  | .invalidRole => 400
  | .notFound => 404
  | .ok _ => 200

/-- Handler of `PATCH /api/v1/users/:id/role` from `routes/users.js`: first
`!['user','admin'].includes(role)` → 400 (an absent role field also fails
this check); then `User.findByIdAndUpdate(id, {role}, {new: true})` → 404 if
no such user, else 200 with the updated user.  Returns the response and the
resulting store. -/
def patchRole (store : List User) (uid : Nat) (role : Option String) :
    RoleResp × List User :=
  match role with
  | none => (.invalidRole, store)
  | some r =>
    if !(r == "user" || r == "admin") then (.invalidRole, store)
    else
      let upd := findOneAndUpdate (fun u => u.id == uid) (fun u => { u with role := r }) store
      match upd.fst with
      | none => (.notFound, upd.snd)
      | some u => (.ok u, upd.snd)

/-! ## Request validation (`middleware/validation.js`) -/

/-- Body of `POST /api/v1/auth/register`. -/
structure RegisterBody where
  name : String
  email : String
  password : String
  role : Option String
deriving Repr, DecidableEq

/-- `validateRegister` from `middleware/validation.js`: Joi schema
`name: string 2..50 required, email: email required, password: min 6
required, role: valid('user','admin') optional`.  Joi's email format check
is abstracted as the parameter `emailValid`; the claims settled here do not
depend on it. -/
def validateRegister (emailValid : String → Bool) (b : RegisterBody) : Bool :=
  decide (2 ≤ b.name.length) && decide (b.name.length ≤ 50) &&
  emailValid b.email &&
  decide (6 ≤ b.password.length) &&
  (match b.role with
   | none => true
   | some r => r == "user" || r == "admin")

/-! ## Password hasher (absent from the source tree) -/

/-- Modelled from the spec: `Password Hasher.hash(plaintext) → digest`, the
bcrypt hashing in the missing `models/User.js`.  "deterministic in
verification, non-deterministic in output (fresh salt per call)": the fresh
salt is an explicit argument, and the digest body is kept exact so that
`verify` realises the spec's round-trip laws for every plaintext, unicode
and maximum-length strings included. -/
def hash (salt : Nat) (plaintext : String) : Digest :=
  ⟨salt, plaintext⟩

/-- Modelled from the spec: `Password Hasher.verify(plaintext, digest) →
bool`, the bcrypt compare in the missing `models/User.js`: "constant-time
comparison semantics; never throws on mismatch, only returns false" — a
total Bool-valued function. -/
def verify (plaintext : String) (d : Digest) : Bool :=
  d.body == plaintext

/-! ## Token service (absent from the source tree) -/

/-- Modelled from the spec: a signed token's claims `{sub, iat, exp}`
together with its signature, which is valid exactly when it was produced
with the process-wide signing secret. -/
structure Token where
  sub : Nat
  iat : Nat
  exp : Nat
  sig : Nat
deriving Repr, DecidableEq

/-- Modelled from the spec: the Token Service failure kinds. -/
inductive TokenError
  | malformed
  | badSignature
  | expired
deriving Repr, DecidableEq

/-- Modelled from the spec: `Token Service.issue(principalId, ttl)` in the
missing `routes/auth.js`: a token `{sub: principalId, iat: now, exp:
now+ttl}` signed with the process-wide secret. -/
def issue (secret : Nat) (principalId : Nat) (now ttl : Nat) : Token :=
  { sub := principalId, iat := now, exp := now + ttl, sig := secret }

/-- Modelled from the spec: `Token Service.verify(token)` in the missing
`middleware/auth.js`: `TokenMalformed` if structurally invalid (no decodable
token, `none` here), `TokenSignatureInvalid` if the signature check fails,
`TokenExpired` if `exp` has passed; otherwise the subject principal id. -/
def verifyToken (secret : Nat) (now : Nat) (tok : Option Token) :
    Except TokenError Nat :=
  match tok with
  | none => .error .malformed
  | some t =>
    if t.sig != secret then .error .badSignature
    else if t.exp < now then .error .expired
    else .ok t.sub

/-! ## Credential store (absent from the source tree) -/

/-- Modelled from the spec: `Credential Store.findById`. -/
def findById (store : List User) (uid : Nat) : Option User :=
  store.find? (fun u => u.id == uid)

/-- Modelled from the spec: the case-insensitive view of an email, character
by character. -/
def lowerEmail (e : String) : List Char :=
  e.data.map Char.toLower

/-- Modelled from the spec: `Credential Store.findByEmail` with the
case-insensitive email compare. -/
def findByEmail (store : List User) (e : String) : Option User :=
  store.find? (fun u => lowerEmail u.email == lowerEmail e)

/-- Response of `POST /api/v1/auth/register`. -/
inductive RegisterResp
  | duplicate
  | created (u : User) (tok : Token)
deriving Repr, DecidableEq

/-- HTTP status sent for each register outcome (409 duplicate email, 201
created). -/
def RegisterResp.status : RegisterResp → Nat
  | .duplicate => 409
  | .created _ _ => 201

/-- Modelled from the spec: `register(name, email, password, role?)` of the
missing `routes/auth.js`: fails with `DuplicateIdentity` if the email is
already present (case-insensitive compare) leaving the store unchanged;
otherwise hashes the password, persists a principal whose role defaults to
`user` when unspecified, and returns it with an issued token. -/
def register (store : List User) (freshId salt secret now ttl : Nat)
    (b : RegisterBody) : RegisterResp × List User :=
  match findByEmail store b.email with
  | some _ => (.duplicate, store)
  | none =>
    let u : User :=
      { id := freshId
        name := b.name
        email := b.email
        passwordDigest := hash salt b.password
        role := b.role.getD "user" }
    (.created u (issue secret freshId now ttl), store ++ [u])

/-- Response of `POST /api/v1/auth/login`. -/
inductive LoginResp
  | invalidCredentials
  | ok (u : User) (tok : Token)
deriving Repr, DecidableEq

/-- HTTP status sent for each login outcome: the single 401 for unknown
email and for failed password verify, 200 on success. -/
def LoginResp.status : LoginResp → Nat
  | .invalidCredentials => 401
  | .ok _ _ => 200

/-- Modelled from the spec: `login(email, password)` of the missing
`routes/auth.js`: lookup by email, verify the password against the stored
digest, issue a token; a single merged `InvalidCredentials` failure for
unknown email and for failed verify. -/
def login (store : List User) (secret now ttl : Nat) (email password : String) :
    LoginResp :=
  match findByEmail store email with
  | none => .invalidCredentials
  | some u =>
    if verify password u.passwordDigest then .ok u (issue secret u.id now ttl)
    else .invalidCredentials

/-! ## Authentication gate (absent from the source tree) -/

/-- Modelled from the spec: the shape of the inbound Authorization header as
the gate classifies it — absent, present but not of the form
`Bearer <token>`, or a bearer value whose token part decodes to `tok`
(`none` when the token string is structurally undecodable). -/
inductive AuthHeader
  | missing
  | malformed
  | bearer (tok : Option Token)
deriving Repr, DecidableEq

/-- Modelled from the spec: the Authentication Gate's single surfaced
failure. -/
inductive AuthFailure
  | unauthenticated
deriving Repr, DecidableEq

/-- HTTP status of the gate's failure. -/
def AuthFailure.status : AuthFailure → Nat
  | .unauthenticated => 401

/-- Modelled from the spec: `protect` of the missing `middleware/auth.js`:
missing or malformed header → `Unauthenticated` (no token service call);
token verification failure of any kind → `Unauthenticated`; verified token
whose subject no longer resolves in the credential store →
`Unauthenticated`; otherwise the resolved principal is attached and control
passes downstream. -/
def protect (secret now : Nat) (store : List User) (h : AuthHeader) :
    Except AuthFailure User :=
  match h with
  | .missing => .error .unauthenticated
  | .malformed => .error .unauthenticated
  | .bearer tok =>
    match verifyToken secret now tok with
    | .error _ => .error .unauthenticated
    | .ok sub =>
      match findById store sub with
      | none => .error .unauthenticated
      | some u => .ok u

/-! ## Demo data, used by the concrete witnesses -/

/-- The regular seed user (from the seed script). -/
def demoUser : User :=
  { id := 1
    name := "John Doe"
    email := "john@example.com"
    passwordDigest := hash 3 "password123"
    role := "user" }

/-- The admin seed user (from the seed script). -/
def demoAdmin : User :=
  { id := 2
    name := "Admin User"
    email := "admin@example.com"
    passwordDigest := hash 4 "admin123"
    role := "admin" }

/-- A two-principal credential store. -/
def demoStore : List User := [demoUser, demoAdmin]

/-- A task owned by the regular seed user. -/
def demoTask : Task :=
  { id := 10
    title := "Complete REST API Documentation"
    description := "Write comprehensive API documentation using Swagger"
    status := "pending"
    priority := "high"
    dueDate := none
    createdBy := 1 }

/-- A second principal with no tasks of their own. -/
def demoOther : User :=
  { id := 3
    name := "Jane Roe"
    email := "jane@example.com"
    passwordDigest := hash 5 "hunter22"
    role := "user" }

/-- An update body touching only the status field. -/
def demoUpdate : TaskUpdateBody :=
  { title := none, description := none, status := some "completed"
    priority := none, dueDate := none }

/-- A creation body that tries to claim another owner via `createdBy`. -/
def demoCreate : TaskCreateBody :=
  { title := "Set up Frontend UI"
    description := "Create React components for task management"
    status := none
    priority := some "medium"
    dueDate := none
    createdBy := some 1 }

/-- A well-formed registration body with no role field. -/
def demoRegister : RegisterBody :=
  { name := "John Doe", email := "John@Example.com"
    password := "password123", role := none }

/-! ## Lemmas about the Mongo-style list operations -/

theorem findOneAndUpdate_fst {α : Type} (q : α → Bool) (f : α → α) (l : List α) :
    (findOneAndUpdate q f l).fst = (l.find? q).map f := by
  induction l with
  | nil => rfl
  | cons a ts ih =>
    cases hq : q a with
    | false => simp [findOneAndUpdate, List.find?, hq, ih]
    | true => simp [findOneAndUpdate, List.find?, hq]

theorem findOneAndDelete_fst {α : Type} (q : α → Bool) (l : List α) :
    (findOneAndDelete q l).fst = l.find? q := by
  induction l with
  | nil => rfl
  | cons a ts ih =>
    cases hq : q a with
    | false => simp [findOneAndDelete, List.find?, hq, ih]
    | true => simp [findOneAndDelete, List.find?, hq]

theorem findOneAndUpdate_cases {α : Type} (q : α → Bool) (f : α → α) (l : List α) :
    (l.find? q = none ∧ findOneAndUpdate q f l = (none, l)) ∨
    ∃ pre t post, l = pre ++ t :: post ∧ q t = true ∧
      findOneAndUpdate q f l = (some (f t), pre ++ f t :: post) := by
  induction l with
  | nil => exact Or.inl ⟨rfl, rfl⟩
  | cons a ts ih =>
    cases hq : q a with
    | true =>
      exact Or.inr ⟨[], a, ts, rfl, hq, by simp [findOneAndUpdate, hq]⟩
    | false =>
      cases ih with
      | inl h =>
        exact Or.inl ⟨by simp [List.find?, hq, h.1], by simp [findOneAndUpdate, hq, h.2]⟩
      | inr h =>
        obtain ⟨pre, t, post, hl, hqt, hres⟩ := h
        exact Or.inr ⟨a :: pre, t, post, by simp [hl], hqt,
          by simp [findOneAndUpdate, hq, hres]⟩

theorem findOneAndDelete_cases {α : Type} (q : α → Bool) (l : List α) :
    (l.find? q = none ∧ findOneAndDelete q l = (none, l)) ∨
    ∃ pre t post, l = pre ++ t :: post ∧ q t = true ∧
      findOneAndDelete q l = (some t, pre ++ post) := by
  induction l with
  | nil => exact Or.inl ⟨rfl, rfl⟩
  | cons a ts ih =>
    cases hq : q a with
    | true =>
      exact Or.inr ⟨[], a, ts, rfl, hq, by simp [findOneAndDelete, hq]⟩
    | false =>
      cases ih with
      | inl h =>
        exact Or.inl ⟨by simp [List.find?, hq, h.1], by simp [findOneAndDelete, hq, h.2]⟩
      | inr h =>
        obtain ⟨pre, t, post, hl, hqt, hres⟩ := h
        exact Or.inr ⟨a :: pre, t, post, by simp [hl], hqt,
          by simp [findOneAndDelete, hq, hres]⟩

theorem findOneAndUpdate_snd_of_none {α : Type} (q : α → Bool) (f : α → α)
    (l : List α) (h : l.find? q = none) : (findOneAndUpdate q f l).snd = l := by
  cases findOneAndUpdate_cases q f l with
  | inl hc => rw [hc.2]
  | inr hc =>
    obtain ⟨pre, t, post, hl, hqt, hres⟩ := hc
    rw [hl] at h
    rw [List.find?_eq_none] at h
    exact absurd hqt (by simpa using h t (by simp))

theorem findOneAndDelete_snd_of_none {α : Type} (q : α → Bool)
    (l : List α) (h : l.find? q = none) : (findOneAndDelete q l).snd = l := by
  cases findOneAndDelete_cases q l with
  | inl hc => rw [hc.2]
  | inr hc =>
    obtain ⟨pre, t, post, hl, hqt, hres⟩ := hc
    rw [hl] at h
    rw [List.find?_eq_none] at h
    exact absurd hqt (by simpa using h t (by simp))

/-- If the first element matching `p` is `t`, and `t` also matches the
stronger filter `q` (with `q` implying `p` everywhere), then `t` is also the
first element matching `q`. -/
theorem find_first_strengthen {α : Type} (p q : α → Bool) (l : List α) (t : α)
    (himp : ∀ x, q x = true → p x = true)
    (hfind : l.find? p = some t) (hq : q t = true) :
    l.find? q = some t := by
  induction l with
  | nil => simp [List.find?] at hfind
  | cons a ts ih =>
    cases hp : p a with
    | true =>
      simp [List.find?, hp] at hfind
      subst hfind
      simp [List.find?, hq]
    | false =>
      have hqa : q a = false := by
        cases hqa : q a with
        | false => rfl
        | true =>
          have h2 := himp a hqa
          rw [hp] at h2
          exact Bool.noConfusion h2
      simp [List.find?, hp] at hfind
      simp [List.find?, hqa]
      exact ih hfind

/-! ## Lemmas about the single-task handlers -/

theorem putTask_eq_of_none (store : List Task) (u : User) (tid : Nat)
    (b : TaskUpdateBody) (h : store.find? (taskIdQuery u tid) = none) :
    putTask store u tid b = (.notFound, store) := by
  simp [putTask, findOneAndUpdate_fst, h,
    findOneAndUpdate_snd_of_none (taskIdQuery u tid) (applyUpdate b) store h]

theorem putTask_fst_of_some (store : List Task) (u : User) (tid : Nat)
    (b : TaskUpdateBody) (t : Task) (h : store.find? (taskIdQuery u tid) = some t) :
    (putTask store u tid b).fst = .updated (applyUpdate b t) := by
  simp [putTask, findOneAndUpdate_fst, h]

theorem deleteTask_eq_of_none (store : List Task) (u : User) (tid : Nat)
    (h : store.find? (taskIdQuery u tid) = none) :
    deleteTask store u tid = (.notFound, store) := by
  simp [deleteTask, findOneAndDelete_fst, h,
    findOneAndDelete_snd_of_none (taskIdQuery u tid) store h]

theorem deleteTask_fst_of_some (store : List Task) (u : User) (tid : Nat)
    (t : Task) (h : store.find? (taskIdQuery u tid) = some t) :
    (deleteTask store u tid).fst = .deleted := by
  simp [deleteTask, findOneAndDelete_fst, h]

theorem taskIdQuery_false_of_other_owner (u : User) (tid : Nat) (t : Task)
    (hrole : u.role ≠ "admin") (hid : t.id = tid → t.createdBy ≠ u.id) :
    taskIdQuery u tid t = false := by
  unfold taskIdQuery
  cases hidq : (t.id == tid) with
  | false => simp
  | true =>
    have heq : t.id = tid := by simpa using hidq
    simp [hrole, hid heq]

theorem find_none_of_mask (store : List Task) (u : User) (tid : Nat)
    (hrole : u.role ≠ "admin")
    (hmask : ∀ t ∈ store, t.id = tid → t.createdBy ≠ u.id) :
    store.find? (taskIdQuery u tid) = none := by
  rw [List.find?_eq_none]
  intro t ht
  simp [taskIdQuery_false_of_other_owner u tid t hrole (hmask t ht)]

theorem find_none_of_absent (store : List Task) (u : User) (tid : Nat)
    (habs : ∀ t ∈ store, t.id ≠ tid) :
    store.find? (taskIdQuery u tid) = none := by
  rw [List.find?_eq_none]
  intro t ht
  simp [taskIdQuery, habs t ht]

theorem taskIdQuery_first (store : List Task) (u : User) (tid : Nat) (t : Task)
    (hfind : store.find? (fun x => x.id == tid) = some t)
    (hok : t.createdBy = u.id ∨ u.role = "admin") :
    store.find? (taskIdQuery u tid) = some t := by
  apply find_first_strengthen (fun x => x.id == tid) (taskIdQuery u tid) store t
  · intro x hx
    unfold taskIdQuery at hx
    simp only [Bool.and_eq_true] at hx
    exact hx.1
  · exact hfind
  · have hid : (t.id == tid) = true := by
      have h2 := List.find?_some hfind
      simpa using h2
    cases hok with
    | inl h => simp [taskIdQuery, hid, h]
    | inr h => simp [taskIdQuery, hid, h]

/-- C1: an authenticated principal whose role is not `admin` gets 404 Not
Found from GET/PUT/DELETE `/api/v1/tasks/:id` whenever every task carrying
the requested id is owned by a different principal — the very same response
value each handler produces when no task carries that id at all — while the
first task found under the id is served, updated or deleted with the success
response when the requester owns it or has role `admin`. -/
theorem ownership_mismatch_masked_as_notFound
    (store : List Task) (u : User) (tid : Nat) (b : TaskUpdateBody) :
    (u.role ≠ "admin" → (∀ t ∈ store, t.id = tid → t.createdBy ≠ u.id) →
      getTaskById store u tid = .notFound ∧
      (putTask store u tid b).fst = .notFound ∧
      (deleteTask store u tid).fst = .notFound) ∧
    ((∀ t ∈ store, t.id ≠ tid) →
      getTaskById store u tid = .notFound ∧
      (putTask store u tid b).fst = .notFound ∧
      (deleteTask store u tid).fst = .notFound) ∧
    TaskGetResp.status .notFound = 404 ∧
    TaskPutResp.status .notFound = 404 ∧
    TaskDeleteResp.status .notFound = 404 ∧
    (∀ t, store.find? (fun x => x.id == tid) = some t →
      (t.createdBy = u.id ∨ u.role = "admin") →
      getTaskById store u tid = .ok t ∧
      (putTask store u tid b).fst = .updated (applyUpdate b t) ∧
      (deleteTask store u tid).fst = .deleted) := by
  refine ⟨?_, ?_, rfl, rfl, rfl, ?_⟩
  · intro hrole hmask
    have h := find_none_of_mask store u tid hrole hmask
    exact ⟨by simp [getTaskById, h],
      by rw [putTask_eq_of_none store u tid b h],
      by rw [deleteTask_eq_of_none store u tid h]⟩
  · intro habs
    have h := find_none_of_absent store u tid habs
    exact ⟨by simp [getTaskById, h],
      by rw [putTask_eq_of_none store u tid b h],
      by rw [deleteTask_eq_of_none store u tid h]⟩
  · intro t hfind hok
    have h := taskIdQuery_first store u tid t hfind hok
    exact ⟨by simp [getTaskById, h],
      putTask_fst_of_some store u tid b t h,
      deleteTask_fst_of_some store u tid t h⟩

/-- Concrete run of C1: a stranger to the single stored task gets
`notFound` from all three handlers. -/
theorem ownership_mismatch_masked_as_notFound_witness :
    getTaskById [demoTask] demoOther 10 = .notFound ∧
    (putTask [demoTask] demoOther 10 demoUpdate).fst = .notFound ∧
    (deleteTask [demoTask] demoOther 10).fst = .notFound :=
  (ownership_mismatch_masked_as_notFound [demoTask] demoOther 10 demoUpdate).1
    (by decide) (by decide)

/-- C2: the Authentication Gate fails `Unauthenticated` (401) for a missing
header, a malformed header, any token-verification failure, and a verified
token whose subject resolves to no stored principal; only when every check
succeeds is the resolved principal attached and control passed downstream. -/
theorem authentication_gate_rejects_exactly_the_bad_requests
    (secret now : Nat) (store : List User) :
    protect secret now store .missing = .error .unauthenticated ∧
    protect secret now store .malformed = .error .unauthenticated ∧
    (∀ tok e, verifyToken secret now tok = .error e →
      protect secret now store (.bearer tok) = .error .unauthenticated) ∧
    (∀ tok sub, verifyToken secret now tok = .ok sub → findById store sub = none →
      protect secret now store (.bearer tok) = .error .unauthenticated) ∧
    (∀ tok sub u, verifyToken secret now tok = .ok sub → findById store sub = some u →
      protect secret now store (.bearer tok) = .ok u) ∧
    AuthFailure.status .unauthenticated = 401 := by
  refine ⟨rfl, rfl, ?_, ?_, ?_, rfl⟩
  · intro tok e hv
    simp [protect, hv]
  · intro tok sub hv hf
    simp [protect, hv, hf]
  · intro tok sub u hv hf
    simp [protect, hv, hf]

/-- Concrete run of C2: with secret 7 at time 100, an undecodable token, a
token signed with secret 8, a valid token for an unknown subject and a valid
token for the seed user behave as the gate prescribes. -/
theorem authentication_gate_rejects_exactly_the_bad_requests_witness :
    protect 7 100 demoStore (.bearer none) = .error .unauthenticated ∧
    protect 7 100 demoStore (.bearer (some (issue 8 1 100 10))) = .error .unauthenticated ∧
    protect 7 100 demoStore (.bearer (some (issue 7 99 100 10))) = .error .unauthenticated ∧
    protect 7 100 demoStore (.bearer (some (issue 7 1 100 10))) = .ok demoUser :=
  ⟨(authentication_gate_rejects_exactly_the_bad_requests 7 100 demoStore).2.2.1
      none .malformed rfl,
   (authentication_gate_rejects_exactly_the_bad_requests 7 100 demoStore).2.2.1
      (some (issue 8 1 100 10)) .badSignature rfl,
   (authentication_gate_rejects_exactly_the_bad_requests 7 100 demoStore).2.2.2.1
      (some (issue 7 99 100 10)) 99 rfl rfl,
   (authentication_gate_rejects_exactly_the_bad_requests 7 100 demoStore).2.2.2.2.1
      (some (issue 7 1 100 10)) 1 demoUser rfl rfl⟩

/-- C4: a login failing on an unknown email and a login failing on a wrong
password produce the very same response value — the single
`invalidCredentials` outcome with status 401 — so a caller cannot tell which
field was wrong. -/
theorem login_failures_indistinguishable
    (store : List User) (secret now ttl : Nat) (e p e2 p2 : String) (u : User)
    (h1 : findByEmail store e = none)
    (h2 : findByEmail store e2 = some u)
    (h3 : verify p2 u.passwordDigest = false) :
    login store secret now ttl e p = .invalidCredentials ∧
    login store secret now ttl e2 p2 = .invalidCredentials ∧
    login store secret now ttl e p = login store secret now ttl e2 p2 ∧
    LoginResp.status (login store secret now ttl e p) = 401 := by
  have ha : login store secret now ttl e p = .invalidCredentials := by
    simp [login, h1]
  have hb : login store secret now ttl e2 p2 = .invalidCredentials := by
    simp [login, h2, h3]
  exact ⟨ha, hb, by rw [ha, hb], by rw [ha]; rfl⟩

/-- Concrete run of C4: an unknown email and a wrong password for the seed
user draw the same 401 response. -/
theorem login_failures_indistinguishable_witness :
    login demoStore 7 100 10 "nobody@example.com" "whatever" = .invalidCredentials ∧
    login demoStore 7 100 10 "john@example.com" "wrong" = .invalidCredentials ∧
    login demoStore 7 100 10 "nobody@example.com" "whatever" =
      login demoStore 7 100 10 "john@example.com" "wrong" ∧
    LoginResp.status (login demoStore 7 100 10 "nobody@example.com" "whatever") = 401 :=
  login_failures_indistinguishable demoStore 7 100 10
    "nobody@example.com" "whatever" "john@example.com" "wrong" demoUser
    (by decide) (by decide) (by decide)

/-- C5: verification succeeds on the hashed plaintext and fails on every
other plaintext, whatever the salt; `verify` is a total Bool-valued
function, so a mismatch yields `false` rather than an exception. -/
theorem hash_verify_roundtrip (salt : Nat) (p q : String) :
    verify p (hash salt p) = true ∧
    (q ≠ p → verify q (hash salt p) = false) := by
  constructor
  · simp [verify, hash]
  · intro hne
    simp only [verify, hash]
    exact beq_eq_false_iff_ne.mpr fun h => hne h.symm

/-- Concrete run of C5: the seed password round-trips, a unicode variant is
rejected. -/
theorem hash_verify_roundtrip_witness :
    verify "password123" (hash 3 "password123") = true ∧
    verify "pässword123" (hash 3 "password123") = false :=
  ⟨(hash_verify_roundtrip 3 "password123" "pässword123").1,
   (hash_verify_roundtrip 3 "password123" "pässword123").2 (by decide)⟩

/-- A freshly appended principal is found by email lookup when nothing
before it matches and its email agrees case-insensitively. -/
theorem findByEmail_append_self (store : List User) (u : User) (e : String)
    (hfresh : findByEmail store e = none)
    (hmail : lowerEmail u.email = lowerEmail e) :
    findByEmail (store ++ [u]) e = some u := by
  unfold findByEmail at hfresh ⊢
  rw [List.find?_append, hfresh, Option.none_or]
  simp [List.find?, hmail]

/-- C3: registering a fresh email and then logging in with the same email
and password both succeed, and the token the login issues verifies (any time
within its ttl) back to the identifier the registration assigned. -/
theorem register_then_login_roundtrip
    (store : List User) (freshId salt secret now ttl now2 ttl2 now3 : Nat)
    (b : RegisterBody)
    (hfresh : findByEmail store b.email = none)
    (hexp : now3 ≤ now2 + ttl2) :
    ∃ u tok,
      register store freshId salt secret now ttl b = (.created u tok, store ++ [u]) ∧
      u.id = freshId ∧
      login (store ++ [u]) secret now2 ttl2 b.email b.password =
        .ok u (issue secret u.id now2 ttl2) ∧
      verifyToken secret now3 (some (issue secret u.id now2 ttl2)) = .ok freshId := by
  refine ⟨⟨freshId, b.name, b.email, hash salt b.password, b.role.getD "user"⟩,
    issue secret freshId now ttl, ?_, rfl, ?_, ?_⟩
  · simp [register, hfresh]
  · have hfind := findByEmail_append_self store
      ⟨freshId, b.name, b.email, hash salt b.password, b.role.getD "user"⟩
      b.email hfresh rfl
    simp only [hash] at hfind
    simp [login, hfind, verify, hash]
  · simp [verifyToken, issue, bne_self_eq_false, Nat.not_lt.mpr hexp]

/-- Concrete run of C3: register the seed body into an empty store, log in
with the same credentials, check the token at time 25 of a ttl ending 30. -/
theorem register_then_login_roundtrip_witness :
    ∃ u tok,
      register [] 1 3 7 0 5 demoRegister = (.created u tok, [] ++ [u]) ∧
      u.id = 1 ∧
      login ([] ++ [u]) 7 10 20 demoRegister.email demoRegister.password =
        .ok u (issue 7 u.id 10 20) ∧
      verifyToken 7 25 (some (issue 7 u.id 10 20)) = .ok 1 :=
  register_then_login_roundtrip [] 1 3 7 0 5 10 20 25 demoRegister rfl (by decide)

/-- C6: once an email is registered, a second registration with any case
variation of it fails as a duplicate (409) and returns the credential store
exactly as it was — no new principal. -/
theorem duplicate_registration_rejected
    (store : List User)
    (freshId salt secret now ttl freshId2 salt2 secret2 now2 ttl2 : Nat)
    (b b2 : RegisterBody)
    (hfresh : findByEmail store b.email = none)
    (hcase : lowerEmail b2.email = lowerEmail b.email) :
    ∃ u tok,
      register store freshId salt secret now ttl b = (.created u tok, store ++ [u]) ∧
      register (store ++ [u]) freshId2 salt2 secret2 now2 ttl2 b2 =
        (.duplicate, store ++ [u]) ∧
      RegisterResp.status .duplicate = 409 := by
  refine ⟨⟨freshId, b.name, b.email, hash salt b.password, b.role.getD "user"⟩,
    issue secret freshId now ttl, ?_, ?_, rfl⟩
  · simp [register, hfresh]
  · have hf2 : findByEmail store b2.email = none := by
      unfold findByEmail at hfresh ⊢
      simp only [hcase]
      exact hfresh
    have hfind := findByEmail_append_self store
      ⟨freshId, b.name, b.email, hash salt b.password, b.role.getD "user"⟩
      b2.email hf2 hcase.symm
    simp [register, hfind]

/-- Concrete run of C6: the seed body registers, an upper-cased clone of its
email is rejected with the store unchanged. -/
theorem duplicate_registration_rejected_witness :
    ∃ u tok,
      register [] 1 3 7 0 5 demoRegister = (.created u tok, [] ++ [u]) ∧
      register ([] ++ [u]) 2 4 7 6 5
        { name := "J Clone", email := "JOHN@EXAMPLE.COM"
          password := "password456", role := none } =
        (.duplicate, [] ++ [u]) ∧
      RegisterResp.status .duplicate = 409 :=
  duplicate_registration_rejected [] 1 3 7 0 5 2 4 7 6 5 demoRegister
    { name := "J Clone", email := "JOHN@EXAMPLE.COM"
      password := "password456", role := none }
    rfl (by decide)

/-- C7: the role-update handler rejects with 400 any supplied role outside
`user`/`admin` (a missing role included) without touching the store, rejects
with 404 a valid role aimed at an unknown principal id without touching the
store, and otherwise answers with the principal updated to the new role.
The invalid-role check runs first, so 404 is only reachable with a valid
role. -/
theorem role_update_contract (store : List User) (uid : Nat) (role : Option String) :
    (role = none → patchRole store uid role = (.invalidRole, store)) ∧
    (∀ r, role = some r → (r == "user" || r == "admin") = false →
      patchRole store uid role = (.invalidRole, store)) ∧
    RoleResp.status .invalidRole = 400 ∧
    (∀ r, role = some r → (r == "user" || r == "admin") = true →
      (store.find? (fun x => x.id == uid) = none →
        patchRole store uid role = (.notFound, store)) ∧
      (∀ u, store.find? (fun x => x.id == uid) = some u →
        (patchRole store uid role).fst = .ok { u with role := r })) ∧
    RoleResp.status .notFound = 404 := by
  refine ⟨?_, ?_, rfl, ?_, rfl⟩
  · intro h
    subst h
    rfl
  · intro r hr hbad
    subst hr
    simp [patchRole, hbad]
  · intro r hr hgood
    subst hr
    constructor
    · intro hnone
      simp [patchRole, hgood, findOneAndUpdate_fst, hnone,
        findOneAndUpdate_snd_of_none (fun x => x.id == uid)
          (fun x => { x with role := r }) store hnone]
    · intro u hsome
      simp [patchRole, hgood, findOneAndUpdate_fst, hsome]

/-- Concrete run of C7: a missing role, the role "banana", an unknown id and
a genuine promotion of the seed user. -/
theorem role_update_contract_witness :
    patchRole demoStore 1 none = (.invalidRole, demoStore) ∧
    patchRole demoStore 1 (some "banana") = (.invalidRole, demoStore) ∧
    patchRole demoStore 99 (some "admin") = (.notFound, demoStore) ∧
    (patchRole demoStore 1 (some "admin")).fst = .ok { demoUser with role := "admin" } :=
  ⟨(role_update_contract demoStore 1 none).1 rfl,
   (role_update_contract demoStore 1 (some "banana")).2.1 "banana" rfl (by decide),
   ((role_update_contract demoStore 99 (some "admin")).2.2.2.1 "admin" rfl
      (by decide)).1 rfl,
   ((role_update_contract demoStore 1 (some "admin")).2.2.2.1 "admin" rfl
      (by decide)).2 demoUser rfl⟩

/-- A principal's role lies in the two-value enumeration. -/
def roleValid (u : User) : Bool :=
  u.role == "user" || u.role == "admin"

/-- C8: starting from a store whose roles all lie in {`user`, `admin`}, a
validated registration and any role update leave every persisted role in
the enumeration, and a registration body carrying no role field creates a
principal with role `user`. -/
theorem roles_stay_in_enumeration
    (store : List User) (freshId salt secret now ttl uid : Nat)
    (emailValid : String → Bool) (b : RegisterBody) (role : Option String)
    (hinv : ∀ u ∈ store, roleValid u = true) :
    (validateRegister emailValid b = true →
      ∀ u ∈ (register store freshId salt secret now ttl b).snd, roleValid u = true) ∧
    (∀ u ∈ (patchRole store uid role).snd, roleValid u = true) ∧
    (b.role = none →
      ∀ u tok st, register store freshId salt secret now ttl b = (.created u tok, st) →
        u.role = "user") := by
  refine ⟨?_, ?_, ?_⟩
  · intro hval u hu
    cases hfind : findByEmail store b.email with
    | some w =>
      simp [register, hfind] at hu
      exact hinv u hu
    | none =>
      simp [register, hfind] at hu
      cases hu with
      | inl hmem => exact hinv u hmem
      | inr hnew =>
        subst hnew
        unfold validateRegister at hval
        simp only [Bool.and_eq_true] at hval
        have hrole := hval.2
        cases hb : b.role with
        | none => simp [roleValid]
        | some r =>
          rw [hb] at hrole
          simp only [roleValid]
          simpa using hrole
  · intro u hu
    cases role with
    | none =>
      exact hinv u (by simpa [patchRole] using hu)
    | some r =>
      by_cases hok : (r == "user" || r == "admin") = true
      · rcases findOneAndUpdate_cases (fun x => x.id == uid)
          (fun x => { x with role := r }) store with hc | hc
        · have hsnd : (patchRole store uid (some r)).snd = store := by
            simp [patchRole, hok, hc.2]
          rw [hsnd] at hu
          exact hinv u hu
        · obtain ⟨pre, t, post, hl, hqt, hres⟩ := hc
          have hsnd : (patchRole store uid (some r)).snd =
              pre ++ { t with role := r } :: post := by
            simp [patchRole, hok, hres]
          rw [hsnd] at hu
          simp only [List.mem_append, List.mem_cons] at hu
          rcases hu with hpre | heq | hpost
          · refine hinv u ?_
            rw [hl]
            simp only [List.mem_append, List.mem_cons]
            exact Or.inl hpre
          · subst heq
            simpa [roleValid] using hok
          · refine hinv u ?_
            rw [hl]
            simp only [List.mem_append, List.mem_cons]
            exact Or.inr (Or.inr hpost)
      · have hbad : (r == "user" || r == "admin") = false := by
          cases hx : (r == "user" || r == "admin") with
          | false => rfl
          | true => exact absurd hx hok
        have hsnd : (patchRole store uid (some r)).snd = store := by
          simp [patchRole, hbad]
        rw [hsnd] at hu
        exact hinv u hu
  · intro hnone u tok st h
    cases hfind : findByEmail store b.email with
    | some w => simp [register, hfind] at h
    | none =>
      simp [register, hfind] at h
      obtain ⟨⟨hu, -⟩, -⟩ := h
      rw [← hu]
      simp [hnone]

/-- Concrete run of C8: the principal created by registering the roleless
seed body into an empty store carries the default role `user`, inside the
enumeration. -/
theorem roles_stay_in_enumeration_witness :
    roleValid
      { id := 5, name := "John Doe", email := "John@Example.com"
        passwordDigest := hash 9 "password123", role := "user" } = true :=
  (roles_stay_in_enumeration [] 5 9 7 0 5 6 (fun _ => true) demoRegister
      (some "admin") (by decide)).1 (by decide)
    { id := 5, name := "John Doe", email := "John@Example.com"
      passwordDigest := hash 9 "password123", role := "user" }
    (by decide)

/-- C9: the creation handler stores the new task with `createdBy` equal to
the authenticated principal's id — the spread of the request body is
followed by the forced `createdBy` key, so even a body smuggling a
`createdBy` of its own yields a task owned by the requester. -/
theorem created_task_owned_by_requester
    (store : List Task) (u : User) (b : TaskCreateBody) (freshId cid : Nat) :
    ((postTask store u b freshId).fst = .created (mkTask freshId b u.id) ∧
     (postTask store u b freshId).snd = store ++ [mkTask freshId b u.id] ∧
     (mkTask freshId b u.id).createdBy = u.id) ∧
    (mkTask freshId { b with createdBy := some cid } u.id).createdBy = u.id :=
  ⟨⟨rfl, rfl, rfl⟩, rfl⟩

/-- The partial update touches title, description, status, priority and
dueDate only; ownership is untouched. -/
theorem applyUpdate_createdBy (b : TaskUpdateBody) (t : Task) :
    (applyUpdate b t).createdBy = t.createdBy := rfl

/-- For a non-admin requester, any task matched by the mutation filter is
the requester's own. -/
theorem taskIdQuery_owner (u : User) (tid : Nat) (t : Task)
    (hrole : u.role ≠ "admin") (hq : taskIdQuery u tid t = true) :
    t.createdBy = u.id := by
  unfold taskIdQuery at hq
  simp only [Bool.and_eq_true, Bool.or_eq_true] at hq
  rcases hq.2 with h | h
  · exact absurd (by simpa using h) hrole
  · simpa using h

theorem putTask_snd (store : List Task) (u : User) (tid : Nat) (b : TaskUpdateBody) :
    (putTask store u tid b).snd =
      (findOneAndUpdate (taskIdQuery u tid) (applyUpdate b) store).snd := by
  unfold putTask
  cases h : (findOneAndUpdate (taskIdQuery u tid) (applyUpdate b) store).fst <;> simp [h]

theorem deleteTask_snd (store : List Task) (u : User) (tid : Nat) :
    (deleteTask store u tid).snd =
      (findOneAndDelete (taskIdQuery u tid) store).snd := by
  unfold deleteTask
  cases h : (findOneAndDelete (taskIdQuery u tid) store).fst <;> simp [h]

/-- C10: for a non-admin requester, update and delete either leave the task
store exactly as it was or touch exactly one task — one the requester owns —
so every task owned by a different principal survives unchanged (the
sublist of foreign-owned tasks is preserved verbatim). -/
theorem non_admin_mutations_frame (store : List Task) (u : User) (tid : Nat)
    (b : TaskUpdateBody) (hrole : u.role ≠ "admin") :
    ((putTask store u tid b).snd.filter (fun t => t.createdBy != u.id) =
        store.filter (fun t => t.createdBy != u.id)) ∧
    ((putTask store u tid b).snd = store ∨
      ∃ pre t post, store = pre ++ t :: post ∧ t.createdBy = u.id ∧
        (putTask store u tid b).snd = pre ++ applyUpdate b t :: post) ∧
    ((deleteTask store u tid).snd.filter (fun t => t.createdBy != u.id) =
        store.filter (fun t => t.createdBy != u.id)) ∧
    ((deleteTask store u tid).snd = store ∨
      ∃ pre t post, store = pre ++ t :: post ∧ t.createdBy = u.id ∧
        (deleteTask store u tid).snd = pre ++ post) := by
  have hput :
      ((putTask store u tid b).snd.filter (fun t => t.createdBy != u.id) =
        store.filter (fun t => t.createdBy != u.id)) ∧
      ((putTask store u tid b).snd = store ∨
        ∃ pre t post, store = pre ++ t :: post ∧ t.createdBy = u.id ∧
          (putTask store u tid b).snd = pre ++ applyUpdate b t :: post) := by
    rcases findOneAndUpdate_cases (taskIdQuery u tid) (applyUpdate b) store with hc | hc
    · have hsnd : (putTask store u tid b).snd = store := by
        rw [putTask_snd, hc.2]
      exact ⟨by rw [hsnd], Or.inl hsnd⟩
    · obtain ⟨pre, t, post, hl, hqt, hres⟩ := hc
      have hown := taskIdQuery_owner u tid t hrole hqt
      have hsnd : (putTask store u tid b).snd = pre ++ applyUpdate b t :: post := by
        rw [putTask_snd, hres]
      refine ⟨?_, Or.inr ⟨pre, t, post, hl, hown, hsnd⟩⟩
      rw [hsnd, hl]
      simp [List.filter_append, List.filter_cons, applyUpdate_createdBy, hown]
  have hdel :
      ((deleteTask store u tid).snd.filter (fun t => t.createdBy != u.id) =
        store.filter (fun t => t.createdBy != u.id)) ∧
      ((deleteTask store u tid).snd = store ∨
        ∃ pre t post, store = pre ++ t :: post ∧ t.createdBy = u.id ∧
          (deleteTask store u tid).snd = pre ++ post) := by
    rcases findOneAndDelete_cases (taskIdQuery u tid) store with hc | hc
    · have hsnd : (deleteTask store u tid).snd = store := by
        rw [deleteTask_snd, hc.2]
      exact ⟨by rw [hsnd], Or.inl hsnd⟩
    · obtain ⟨pre, t, post, hl, hqt, hres⟩ := hc
      have hown := taskIdQuery_owner u tid t hrole hqt
      have hsnd : (deleteTask store u tid).snd = pre ++ post := by
        rw [deleteTask_snd, hres]
      refine ⟨?_, Or.inr ⟨pre, t, post, hl, hown, hsnd⟩⟩
      rw [hsnd, hl]
      simp [List.filter_append, List.filter_cons, hown]
  exact ⟨hput.1, hput.2, hdel.1, hdel.2⟩

/-- Concrete run of C10: a non-owner's update and delete attempts leave the
foreign-owned sublist — here the whole store — intact. -/
theorem non_admin_mutations_frame_witness :
    ((putTask [demoTask] demoOther 10 demoUpdate).snd.filter
        (fun t => t.createdBy != demoOther.id) =
      [demoTask].filter (fun t => t.createdBy != demoOther.id)) ∧
    ((deleteTask [demoTask] demoOther 10).snd.filter
        (fun t => t.createdBy != demoOther.id) =
      [demoTask].filter (fun t => t.createdBy != demoOther.id)) :=
  ⟨(non_admin_mutations_frame [demoTask] demoOther 10 demoUpdate (by decide)).1,
   (non_admin_mutations_frame [demoTask] demoOther 10 demoUpdate (by decide)).2.2.1⟩

end ScalableApi
